import Mathlib

/-!
Shallow embedding of `src/voting_system.py` (BlackRoad-Gov/audit-tools).

The SQLite database is modelled as a `DBState` holding the rows of the three
tables created by `init_db` (`ballots`, `votes`, `eligible_voters`).
`init_db` itself (CREATE TABLE IF NOT EXISTS) does not change any row and is
not modelled.  Every Python function that raises `ValueError` is embedded as
a function returning `Except VError _`; the distinct raise sites of the
source become distinct `VError` constructors.  A violation of a SQLite
uniqueness constraint (`sqlite3.IntegrityError`, which the source never
catches) is a separate constructor family, since for the caller it is a
different exception class than `ValueError`.

`hashlib.sha256(...).hexdigest()` is embedded as an explicit function
parameter `hash : String → String`; claims about tamper detection assume it
is collision-free (`Function.Injective hash`), which is the standard
idealisation of a cryptographic hash.  Python `round(_, 2)` on floats is
likewise passed as an explicit parameter `round2 : Rat → Rat`; no claim
depends on its value.

Wall-clock time (`datetime.now(...).isoformat()`) and the generated ids
(`str(uuid.uuid4())[:8]`) are passed as explicit string arguments.
-/

namespace VotingSystem

/-- Row of the `ballots` table / the `Ballot` dataclass. -/
structure Ballot where
  id : String
  title : String
  description : String
  options : List String
  start_time : String
  end_time : String
  is_active : Bool
  created_at : String
deriving Repr, DecidableEq

/-- Row of the `votes` table / the `Vote` dataclass. -/
structure Vote where
  id : String
  voter_id : String
  ballot_id : String
  choice : String
  timestamp : String
  signature : String
deriving Repr, DecidableEq

/-- The three tables created by `init_db`.  An `eligible_voters` row is
`(voter_id, ballot_id, registered_at)`. -/
structure DBState where
  ballots : List Ballot
  votes : List Vote
  eligible : List (String × String × String)
deriving Repr, DecidableEq

/-- One constructor per distinct raise site of the source.  The
`uniqueViolation…`/`pkViolation…` constructors stand for
`sqlite3.IntegrityError` raised by an INSERT that violates a constraint of
the schema in `init_db`; the source has no handler for them. -/
inductive VError where
  | ballotNotFound (ballot_id : String)
  | ballotClosed (ballot_id : String)
  | notYetOpen
  | windowClosed
  | invalidChoice (choice : String) (options : List String)
  | notEligible (voter_id ballot_id : String)
  | alreadyVoted (voter_id ballot_id : String)
  | tooFewOptions
  | uniqueViolationVotes (voter_id ballot_id : String)
  | pkViolationVotesId (id : String)
  | pkViolationBallotsId (id : String)
  | unknownFormat (fmt : String)
deriving Repr, DecidableEq

/-- The error taxonomy of spec §7.  `storageFailure` stands for a raw
storage-layer exception (`sqlite3.IntegrityError`), which is *not* part of
the spec's five caller-facing kinds. -/
inductive ErrKind where
  | notFound
  | invalidState
  | invalidInput
  | forbidden
  | conflict
  | storageFailure
deriving Repr, DecidableEq

/-- Classification of each raise site under the taxonomy of spec §7. -/
def kindOf : VError → ErrKind
  | .ballotNotFound _ => .notFound
  | .ballotClosed _ => .invalidState
  | .notYetOpen => .invalidState
  | .windowClosed => .invalidState
  | .invalidChoice _ _ => .invalidInput
  | .notEligible _ _ => .forbidden
  | .alreadyVoted _ _ => .conflict
  | .tooFewOptions => .invalidInput
  | .uniqueViolationVotes _ _ => .storageFailure
  | .pkViolationVotesId _ => .storageFailure
  | .pkViolationBallotsId _ => .storageFailure
  | .unknownFormat _ => .invalidInput

/-- Positional tag of a `VError` constructor; used to separate raise sites. -/
def errTag : VError → Nat
  | .ballotNotFound _ => 0
  | .ballotClosed _ => 1
  | .notYetOpen => 2
  | .windowClosed => 3
  | .invalidChoice _ _ => 4
  | .notEligible _ _ => 5
  | .alreadyVoted _ _ => 6
  | .tooFewOptions => 7
  | .uniqueViolationVotes _ _ => 8
  | .pkViolationVotesId _ => 9
  | .pkViolationBallotsId _ => 10
  | .unknownFormat _ => 11

/-- Python string `<` on `str` values: lexicographic comparison by code
point, written as a structurally recursive Bool so that it evaluates. -/
def strLtB : List Char → List Char → Bool
  | [], [] => false
  | [], _ :: _ => true
  | _ :: _, [] => false
  | a :: as, b :: bs =>
    if a.toNat < b.toNat then true
    else if b.toNat < a.toNat then false
    else strLtB as bs

/-- `a < b` on Python strings (the source compares ISO timestamps this
way). -/
def strLt (a b : String) : Bool := strLtB a.data b.data

/-- The raw string `f"{voter_id}:{ballot_id}:{choice}:{timestamp}"` hashed
by `_sign`. -/
def signRaw (voter_id ballot_id choice timestamp : String) : String :=
  voter_id ++ ":" ++ ballot_id ++ ":" ++ choice ++ ":" ++ timestamp

/-- `_sign`: `hashlib.sha256(raw.encode()).hexdigest()`, with the hash as an
explicit parameter. -/
def sign (hash : String → String) (voter_id ballot_id choice timestamp : String) : String :=
  hash (signRaw voter_id ballot_id choice timestamp)

/-- `verify_vote`: recompute the signature from the vote's own fields and
compare. -/
def verify_vote (hash : String → String) (v : Vote) : Bool :=
  v.signature == sign hash v.voter_id v.ballot_id v.choice v.timestamp

/-- `SELECT * FROM ballots WHERE id=?` (ids are a PRIMARY KEY, so the first
match is the row). -/
def findBallot (s : DBState) (ballot_id : String) : Option Ballot :=
  s.ballots.find? (fun b => b.id == ballot_id)

/-- `validate_eligibility`: `SELECT 1 FROM eligible_voters WHERE voter_id=?
AND ballot_id=?` is non-empty. -/
def validate_eligibility (s : DBState) (voter_id ballot_id : String) : Bool :=
  s.eligible.any (fun r => r.1 == voter_id && r.2.1 == ballot_id)

/-- The duplicate-vote pre-check of `cast_vote`:
`SELECT 1 FROM votes WHERE voter_id=? AND ballot_id=?` is non-empty. -/
def hasVoted (s : DBState) (voter_id ballot_id : String) : Bool :=
  s.votes.any (fun v => v.voter_id == voter_id && v.ballot_id == ballot_id)

/-- `INSERT INTO votes VALUES (...)` under the schema constraints
`id TEXT PRIMARY KEY` and `UNIQUE(voter_id, ballot_id)`: a violating insert
raises `sqlite3.IntegrityError` and stores nothing. -/
def insertVote (votes : List Vote) (v : Vote) : Except VError (List Vote) :=
  if votes.any (fun w => w.id == v.id) then
    .error (.pkViolationVotesId v.id)
  else if votes.any (fun w => w.voter_id == v.voter_id && w.ballot_id == v.ballot_id) then
    .error (.uniqueViolationVotes v.voter_id v.ballot_id)
  else
    .ok (votes ++ [v])

/-- `INSERT INTO ballots VALUES (...)` under `id TEXT PRIMARY KEY`. -/
def insertBallot (ballots : List Ballot) (b : Ballot) : Except VError (List Ballot) :=
  if ballots.any (fun x => x.id == b.id) then
    .error (.pkViolationBallotsId b.id)
  else
    .ok (ballots ++ [b])

/-- The guard sequence of `cast_vote` (everything before the INSERT); all
reads, no writes.  Mirrors the source order: ballot lookup, `is_active`,
`now_str < start_time`, `now_str > end_time`, choice membership,
`validate_eligibility`, duplicate pre-check. -/
def castVoteGuards (s : DBState) (ballot_id voter_id choice now : String) : Option VError :=
  match findBallot s ballot_id with
  | none => some (.ballotNotFound ballot_id)
  | some ballot =>
    if ballot.is_active = false then some (.ballotClosed ballot_id)
    else if strLt now ballot.start_time then some .notYetOpen
    else if strLt ballot.end_time now then some .windowClosed
    else if ballot.options.contains choice = false then
      some (.invalidChoice choice ballot.options)
    else if validate_eligibility s voter_id ballot_id = false then
      some (.notEligible voter_id ballot_id)
    else if hasVoted s voter_id ballot_id then
      some (.alreadyVoted voter_id ballot_id)
    else none

/-- The `Vote(...)` constructed by `cast_vote` once all guards pass. -/
def mkVote (hash : String → String) (ballot_id voter_id choice now voteId : String) : Vote :=
  { id := voteId, voter_id := voter_id, ballot_id := ballot_id, choice := choice,
    timestamp := now, signature := sign hash voter_id ballot_id choice now }

/-- The commit step of `cast_vote`: construct the signed `Vote` and run the
INSERT.  On an INSERT error nothing is stored. -/
def castVoteCommit (hash : String → String) (s : DBState)
    (ballot_id voter_id choice now voteId : String) : Except VError Vote × DBState :=
  match insertVote s.votes (mkVote hash ballot_id voter_id choice now voteId) with
  | .error e => (.error e, s)
  | .ok vs => (.ok (mkVote hash ballot_id voter_id choice now voteId), { s with votes := vs })

/-- `cast_vote`: the guards followed by the commit, both against the same
state (the sequential execution of the source).  `now` is the single
`now_str` the source samples once; `voteId` is the generated vote id. -/
def cast_vote (hash : String → String) (s : DBState)
    (ballot_id voter_id choice now voteId : String) : Except VError Vote × DBState :=
  match castVoteGuards s ballot_id voter_id choice now with
  | some e => (.error e, s)
  | none => castVoteCommit hash s ballot_id voter_id choice now voteId

/-- `create_ballot`.  `newId` is the generated `str(uuid.uuid4())[:8]`,
`created_at` the sampled creation time. -/
def create_ballot (s : DBState) (title description : String) (options : List String)
    (start_time end_time newId created_at : String) : Except VError Ballot × DBState :=
  if options.length < 2 then (.error .tooFewOptions, s)
  else
    let b : Ballot :=
      { id := newId, title := title, description := description, options := options,
        start_time := start_time, end_time := end_time, is_active := true,
        created_at := created_at }
    match insertBallot s.ballots b with
    | .error e => (.error e, s)
    | .ok bs => (.ok b, { s with ballots := bs })

/-- `register_voter`: `INSERT OR IGNORE` under `PRIMARY KEY(voter_id,
ballot_id)`. -/
def register_voter (s : DBState) (voter_id ballot_id now : String) : DBState :=
  if s.eligible.any (fun r => r.1 == voter_id && r.2.1 == ballot_id) then s
  else { s with eligible := s.eligible ++ [(voter_id, ballot_id, now)] }

/-- `close_ballot`: `UPDATE ballots SET is_active=0 WHERE id=?`.  No
existence check, no error path. -/
def close_ballot (s : DBState) (ballot_id : String) : DBState :=
  { s with
    ballots := s.ballots.map (fun b =>
      if b.id == ballot_id then { b with is_active := false } else b) }

/-- `SELECT … FROM votes WHERE ballot_id=?` in insertion order. -/
def votesFor (s : DBState) (ballot_id : String) : List Vote :=
  s.votes.filter (fun v => v.ballot_id == ballot_id)

/-- Key sequence of the Python dict `{opt: 0 for opt in options}` built the
way dict insertion does it: walk the list, keep an element as a key the
first time it is seen.  `seen` is the set of keys already inserted. -/
def dictKeysAux (seen : List String) : List String → List String
  | [] => []
  | x :: xs =>
    if seen.contains x then dictKeysAux seen xs
    else x :: dictKeysAux (x :: seen) xs

/-- First occurrence of each distinct element, in order: the key order of
`{opt: 0 for opt in options}`. -/
def dictKeys (l : List String) : List String := dictKeysAux [] l

/-- Number of votes in `votes` for the choice `opt`. -/
def countFor (votes : List Vote) (opt : String) : Nat :=
  votes.countP (fun v => v.choice == opt)

/-- One step of the tally loop: `if c in counts: counts[c] += 1`. -/
def bumpCount (counts : List (String × Nat)) (v : Vote) : List (String × Nat) :=
  counts.map (fun p => if p.1 == v.choice then (p.1, p.2 + 1) else p)

/-- The `counts` dict of `tally`: initialised to zero for every declared
option, then one increment per vote whose choice is a key. -/
def tallyCounts (options : List String) (votes : List Vote) : List (String × Nat) :=
  votes.foldl bumpCount ((dictKeys options).map (fun k => (k, 0)))

/-- One comparison step of Python `max`: the running best is replaced only
by a strictly greater value (so ties keep the earlier element). -/
def pyStep (best q : String × Nat) : String × Nat :=
  if best.2 < q.2 then q else best

/-- Python `max(counts, key=counts.get)` over a dict in key-insertion
order. -/
def pyMax (counts : List (String × Nat)) : Option (String × Nat) :=
  match counts with
  | [] => none
  | p :: rest => some (rest.foldl pyStep p)

/-- The key of the maximal entry, ties to the earliest key. -/
def pyMaxKey (counts : List (String × Nat)) : Option String :=
  (pyMax counts).map Prod.fst

/-- The dict returned by `tally`. -/
structure Summary where
  ballot_id : String
  title : String
  total_votes : Nat
  counts : List (String × Nat)
  percentages : List (String × Rat)
  winner : Option String
deriving Repr, DecidableEq

/-- `tally`.  `round2` stands for Python `round(_, 2)` on floats. -/
def tally (round2 : Rat → Rat) (s : DBState) (ballot_id : String) : Except VError Summary :=
  match findBallot s ballot_id with
  | none => .error (.ballotNotFound ballot_id)
  | some ballot =>
    let counts := tallyCounts ballot.options (votesFor s ballot_id)
    let total := (counts.map Prod.snd).sum
    let percentages := counts.map (fun p =>
      (p.1, if total = 0 then (0 : Rat) else round2 (100 * (p.2 : Rat) / (total : Rat))))
    let winner := if total = 0 then none else pyMaxKey counts
    .ok { ballot_id := ballot_id, title := ballot.title, total_votes := total,
          counts := counts, percentages := percentages, winner := winner }

/-- One CSV data row: `[voter_id, ballot_id, choice, timestamp, signature]`
(the header row of the source is a constant and is not part of the data
rows). -/
def csvRow (v : Vote) : List String :=
  [v.voter_id, v.ballot_id, v.choice, v.timestamp, v.signature]

/-- The structured content of `export_results` output: the parsed JSON
document `{summary, votes}`, or the CSV data rows below the header. -/
inductive ExportOut where
  | jsonDoc (summary : Summary) (votes : List Vote)
  | csvDoc (rows : List (List String))
deriving Repr, DecidableEq

/-- `export_results`: tally first (propagating its error), then fetch the
votes, then dispatch on the format string. -/
def export_results (round2 : Rat → Rat) (s : DBState) (ballot_id fmt : String) :
    Except VError ExportOut :=
  match tally round2 s ballot_id with
  | .error e => .error e
  | .ok summary =>
    let votes := votesFor s ballot_id
    if fmt == "json" then .ok (.jsonDoc summary votes)
    else if fmt == "csv" then .ok (.csvDoc (votes.map csvRow))
    else .error (.unknownFormat fmt)

/-- `total_votes` of the summary inside a JSON export document. -/
def jsonTotalVotes : ExportOut → Option Nat
  | .jsonDoc summary _ => some summary.total_votes
  | .csvDoc _ => none

/-- Number of data rows (header excluded) of a CSV export document. -/
def csvRowCount : ExportOut → Option Nat
  | .jsonDoc _ _ => none
  | .csvDoc rows => some rows.length

/-- Count of votes stored for `ballot_id` whose choice is `opt`. -/
def choiceCount (s : DBState) (ballot_id opt : String) : Nat :=
  countFor (votesFor s ballot_id) opt

-- Concrete instances used by the witnesses and counterexamples below.

/-- An active ballot with an open 2025 window. -/
def bW : Ballot :=
  { id := "b1", title := "T", description := "D", options := ["Yes", "No"],
    start_time := "2025-01-01", end_time := "2025-12-31", is_active := true,
    created_at := "2025-01-01" }

/-- The same ballot closed by deactivation, under another id. -/
def bC : Ballot :=
  { bW with id := "b2", is_active := false }

/-- Store holding `bW` and `bC`, voter `v1` registered for both, no votes. -/
def sW : DBState :=
  { ballots := [bW, bC], votes := [],
    eligible := [("v1", "b1", "2025-01-01"), ("v1", "b2", "2025-01-01")] }

/-- A cast time inside the window of `bW`. -/
def nowW : String := "2025-06-15"

/-- The vote `cast_vote` builds for `v1` on `bW` (hash instantiated with the
identity function). -/
def vW : Vote :=
  { id := "vt1", voter_id := "v1", ballot_id := "b1", choice := "Yes",
    timestamp := nowW, signature := signRaw "v1" "b1" "Yes" nowW }

/-- `sW` after the vote `vW` is committed. -/
def sW2 : DBState := { sW with votes := [vW] }

/-- Ballot for the export counterexample. -/
def c9ballot : Ballot :=
  { id := "b9", title := "T9", description := "", options := ["A", "B"],
    start_time := "a", end_time := "z", is_active := true, created_at := "a" }

/-- A stored vote whose choice `"C"` is not among the declared options —
such a row cannot arise through `cast_vote`, but nothing in the schema
forbids it and `tally` explicitly guards against it (`if c in counts`). -/
def c9rogue : Vote :=
  { id := "r1", voter_id := "v9", ballot_id := "b9", choice := "C",
    timestamp := "m", signature := "sig" }

/-- Store holding the export-counterexample ballot and the rogue vote. -/
def c9state : DBState :=
  { ballots := [c9ballot], votes := [c9rogue], eligible := [] }

/-- Ballot for the tie-break witness (spec §8 scenario: options `X`, `Y`,
one vote each). -/
def bT : Ballot :=
  { id := "b3", title := "TB", description := "", options := ["X", "Y"],
    start_time := "a", end_time := "z", is_active := true, created_at := "a" }

/-- One committed vote for `"X"` on `bT`. -/
def vX : Vote :=
  { id := "x1", voter_id := "u1", ballot_id := "b3", choice := "X",
    timestamp := "m", signature := "s1" }

/-- One committed vote for `"Y"` on `bT`. -/
def vY : Vote :=
  { id := "y1", voter_id := "u2", ballot_id := "b3", choice := "Y",
    timestamp := "m", signature := "s2" }

/-- Store realising the tie scenario on `bT`. -/
def sT : DBState := { ballots := [bT], votes := [vX, vY], eligible := [] }

/-- The summary `tally` produces for ballot `"b1"` on the vote-less store
`sW`. -/
def sumW : Summary :=
  { ballot_id := "b1", title := "T", total_votes := 0,
    counts := [("Yes", 0), ("No", 0)],
    percentages := [("Yes", (0 : Rat)), ("No", (0 : Rat))], winner := none }

-- ────────────────────────── helper lemmas ──────────────────────────

theorem insertVote_error_tag (votes : List Vote) (v : Vote) (e : VError)
    (h : insertVote votes v = .error e) : errTag e = 8 ∨ errTag e = 9 := by
  unfold insertVote at h
  split at h
  · cases h
    exact Or.inr rfl
  · split at h
    · cases h
      exact Or.inl rfl
    · cases h

theorem castVoteCommit_error_state (hash : String → String) (s : DBState)
    (ballot_id voter_id choice now voteId : String) (e : VError)
    (h : (castVoteCommit hash s ballot_id voter_id choice now voteId).1 = .error e) :
    (castVoteCommit hash s ballot_id voter_id choice now voteId).2 = s := by
  unfold castVoteCommit at h ⊢
  generalize insertVote s.votes (mkVote hash ballot_id voter_id choice now voteId) = r at h ⊢
  cases r with
  | error e2 => rfl
  | ok vs => simp at h

theorem castVoteCommit_error_tag (hash : String → String) (s : DBState)
    (ballot_id voter_id choice now voteId : String) (e : VError)
    (h : (castVoteCommit hash s ballot_id voter_id choice now voteId).1 = .error e) :
    errTag e = 8 ∨ errTag e = 9 := by
  unfold castVoteCommit at h
  generalize hi : insertVote s.votes (mkVote hash ballot_id voter_id choice now voteId) = r at h
  cases r with
  | error e2 =>
    injection h with h2
    subst h2
    exact insertVote_error_tag _ _ _ hi
  | ok vs => simp at h

-- ────────────────────────── claim theorems ──────────────────────────

/-- C7: whenever `cast_vote` fails with any error, the returned store state
is exactly the starting state: a rejected cast leaves no Vote row (and
changes no other stored state). -/
theorem cast_vote_error_leaves_state_unchanged (hash : String → String) (s : DBState)
    (ballot_id voter_id choice now voteId : String) (e : VError)
    (h : (cast_vote hash s ballot_id voter_id choice now voteId).1 = .error e) :
    (cast_vote hash s ballot_id voter_id choice now voteId).2 = s := by
  unfold cast_vote at h ⊢
  generalize castVoteGuards s ballot_id voter_id choice now = r at h ⊢
  cases r with
  | some e2 => rfl
  | none => exact castVoteCommit_error_state hash s ballot_id voter_id choice now voteId e h

/-- Witness for C7: a concrete failing cast (absent ballot) leaves the
concrete store `sW` unchanged. -/
theorem cast_vote_error_leaves_state_unchanged_witness :
    (cast_vote id sW "missing" "v1" "Yes" nowW "vt9").1 = .error (.ballotNotFound "missing") ∧
    (cast_vote id sW "missing" "v1" "Yes" nowW "vt9").2 = sW :=
  ⟨rfl, cast_vote_error_leaves_state_unchanged id sW "missing" "v1" "Yes" nowW "vt9"
    (.ballotNotFound "missing") rfl⟩

/-- C1 (failing part, concretely): two cast attempts for the same
`(voter_id, ballot_id)` pair both pass the read-only guard phase against
the same starting state (the stale pre-check of a race); the first commit
succeeds, and the second commit is rejected by the storage UNIQUE
constraint — but that rejection is `sqlite3.IntegrityError`
(`storageFailure`), not the `Conflict("already voted")` error the claim
requires, because the source never translates it.  The sequential
pre-check, by contrast, does produce the Conflict error. -/
theorem commit_time_duplicate_surfaces_as_storage_error :
    castVoteGuards sW "b1" "v1" "Yes" nowW = none ∧
    castVoteGuards sW "b1" "v1" "No" nowW = none ∧
    castVoteCommit id sW "b1" "v1" "Yes" nowW "vt1" = (.ok vW, sW2) ∧
    castVoteGuards sW2 "b1" "v1" "No" nowW = some (.alreadyVoted "v1" "b1") ∧
    kindOf (.alreadyVoted "v1" "b1") = .conflict ∧
    castVoteCommit id sW2 "b1" "v1" "No" nowW "vt2" =
      (.error (.uniqueViolationVotes "v1" "b1"), sW2) ∧
    kindOf (.uniqueViolationVotes "v1" "b1") = .storageFailure ∧
    ErrKind.storageFailure ≠ ErrKind.conflict :=
  ⟨rfl, rfl, rfl, rfl, rfl, rfl, rfl, by decide⟩

/-- C9 counterexample: in a store holding a vote whose choice is not among
the ballot's declared options (possible by direct data manipulation — the
schema does not forbid it, and `tally` explicitly guards `if c in counts`),
the JSON export reports `total_votes = 0` while the CSV export has one data
row, so the claimed equality fails for this store state. -/
theorem export_roundtrip_counterexample :
    (export_results (fun q => q) c9state "b9" "json").map jsonTotalVotes = .ok (some 0) ∧
    (export_results (fun q => q) c9state "b9" "csv").map csvRowCount = .ok (some 1) ∧
    (export_results (fun q => q) c9state "b9" "json").map jsonTotalVotes ≠
      (export_results (fun q => q) c9state "b9" "csv").map csvRowCount := by
  refine ⟨rfl, rfl, fun hcontra => ?_⟩
  have h0 : (Except.ok (some 0) : Except VError (Option Nat)) = .ok (some 1) :=
    calc (Except.ok (some 0) : Except VError (Option Nat))
        = (export_results (fun q => q) c9state "b9" "json").map jsonTotalVotes := rfl
      _ = (export_results (fun q => q) c9state "b9" "csv").map csvRowCount := hcontra
      _ = .ok (some 1) := rfl
  simp at h0

/-- C8: with fewer than 2 options, `create_ballot` fails with the
`InvalidInput`-kind error and creates nothing; with at least 2 options and
a fresh id it returns a ballot carrying exactly the given fields with
`is_active = true`, and appends exactly that ballot to the store. -/
theorem create_ballot_spec (s : DBState) (title description : String) (options : List String)
    (start_time end_time newId created_at : String) :
    (options.length < 2 →
      create_ballot s title description options start_time end_time newId created_at =
        (.error .tooFewOptions, s) ∧ kindOf .tooFewOptions = .invalidInput) ∧
    (2 ≤ options.length → (∀ b ∈ s.ballots, b.id ≠ newId) →
      create_ballot s title description options start_time end_time newId created_at =
        (.ok { id := newId, title := title, description := description, options := options,
               start_time := start_time, end_time := end_time, is_active := true,
               created_at := created_at },
         { s with ballots := s.ballots ++
             [{ id := newId, title := title, description := description, options := options,
                start_time := start_time, end_time := end_time, is_active := true,
                created_at := created_at }] })) := by
  constructor
  · intro h
    exact ⟨by simp [create_ballot, h], rfl⟩
  · intro h2 hfresh
    have hlt : ¬ options.length < 2 := not_lt.mpr h2
    have hins : s.ballots.any (fun x => x.id == newId) = false := by
      rw [List.any_eq_false]
      intro x hx
      simp [hfresh x hx]
    simp [create_ballot, hlt, insertBallot, hins]

/-- Witness for C8: a concrete 2-option creation succeeds with exactly the
given fields, and a concrete 1-option creation fails leaving `sW`
unchanged. -/
theorem create_ballot_spec_witness :
    create_ballot sW "NT" "ND" ["X", "Y"] "s" "e" "fresh1" "c" =
      (.ok { id := "fresh1", title := "NT", description := "ND", options := ["X", "Y"],
             start_time := "s", end_time := "e", is_active := true, created_at := "c" },
       { sW with ballots := sW.ballots ++
           [{ id := "fresh1", title := "NT", description := "ND", options := ["X", "Y"],
              start_time := "s", end_time := "e", is_active := true, created_at := "c" }] }) ∧
    create_ballot sW "NT" "ND" ["solo"] "s" "e" "fresh1" "c" = (.error .tooFewOptions, sW) :=
  ⟨(create_ballot_spec sW "NT" "ND" ["X", "Y"] "s" "e" "fresh1" "c").2 (by decide) (by decide),
   ((create_ballot_spec sW "NT" "ND" ["solo"] "s" "e" "fresh1" "c").1 (by decide)).1⟩

theorem castVoteGuards_found (s : DBState) (ballot_id voter_id choice now : String)
    (ballot : Ballot) (hb : findBallot s ballot_id = some ballot) :
    castVoteGuards s ballot_id voter_id choice now =
      (if ballot.is_active = false then some (.ballotClosed ballot_id)
       else if strLt now ballot.start_time then some .notYetOpen
       else if strLt ballot.end_time now then some .windowClosed
       else if ballot.options.contains choice = false then
         some (.invalidChoice choice ballot.options)
       else if validate_eligibility s voter_id ballot_id = false then
         some (.notEligible voter_id ballot_id)
       else if hasVoted s voter_id ballot_id then
         some (.alreadyVoted voter_id ballot_id)
       else none) := by
  unfold castVoteGuards
  rw [hb]

theorem guards_window_pass (s : DBState) (ballot_id voter_id choice now : String)
    (ballot : Ballot) (hb : findBallot s ballot_id = some ballot)
    (hact : ballot.is_active = true) (h1 : strLt now ballot.start_time = false)
    (h2 : strLt ballot.end_time now = false) (e : VError)
    (hg : castVoteGuards s ballot_id voter_id choice now = some e) :
    errTag e = 4 ∨ errTag e = 5 ∨ errTag e = 6 := by
  rw [castVoteGuards_found s ballot_id voter_id choice now ballot hb] at hg
  rw [if_neg (by simp [hact]), if_neg (by simp [h1]), if_neg (by simp [h2])] at hg
  by_cases hc : ballot.options.contains choice = false
  · rw [if_pos hc] at hg
    injection hg with h5
    subst h5
    exact Or.inl rfl
  · rw [if_neg hc] at hg
    by_cases he : validate_eligibility s voter_id ballot_id = false
    · rw [if_pos he] at hg
      injection hg with h5
      subst h5
      exact Or.inr (Or.inl rfl)
    · rw [if_neg he] at hg
      by_cases hv : hasVoted s voter_id ballot_id = true
      · rw [if_pos hv] at hg
        injection hg with h5
        subst h5
        exact Or.inr (Or.inr rfl)
      · rw [if_neg hv] at hg
        exact Option.noConfusion hg

/-- C10: `close_ballot` is a total operation (it raises nothing, in
particular no NotFound): on an absent ballot id it is the identity on the
whole store; it never touches votes or eligibility rows; and on each stored
ballot it changes nothing but the `is_active` flag, which it sets to
`false` exactly on the ballots carrying the given id. -/
theorem close_ballot_spec (s : DBState) (ballot_id : String) :
    (close_ballot s ballot_id).votes = s.votes ∧
    (close_ballot s ballot_id).eligible = s.eligible ∧
    ((∀ b ∈ s.ballots, b.id ≠ ballot_id) → close_ballot s ballot_id = s) ∧
    (close_ballot s ballot_id).ballots.length = s.ballots.length ∧
    (∀ i (h1 : i < s.ballots.length) (h2 : i < (close_ballot s ballot_id).ballots.length),
      ((close_ballot s ballot_id).ballots.get ⟨i, h2⟩).id = (s.ballots.get ⟨i, h1⟩).id ∧
      ((close_ballot s ballot_id).ballots.get ⟨i, h2⟩).title = (s.ballots.get ⟨i, h1⟩).title ∧
      ((close_ballot s ballot_id).ballots.get ⟨i, h2⟩).description
        = (s.ballots.get ⟨i, h1⟩).description ∧
      ((close_ballot s ballot_id).ballots.get ⟨i, h2⟩).options
        = (s.ballots.get ⟨i, h1⟩).options ∧
      ((close_ballot s ballot_id).ballots.get ⟨i, h2⟩).start_time
        = (s.ballots.get ⟨i, h1⟩).start_time ∧
      ((close_ballot s ballot_id).ballots.get ⟨i, h2⟩).end_time
        = (s.ballots.get ⟨i, h1⟩).end_time ∧
      ((close_ballot s ballot_id).ballots.get ⟨i, h2⟩).created_at
        = (s.ballots.get ⟨i, h1⟩).created_at ∧
      ((close_ballot s ballot_id).ballots.get ⟨i, h2⟩).is_active
        = (if (s.ballots.get ⟨i, h1⟩).id = ballot_id then false
           else (s.ballots.get ⟨i, h1⟩).is_active)) := by
  refine ⟨rfl, rfl, ?_, by simp [close_ballot], ?_⟩
  · intro hab
    have h2 : ∀ b ∈ s.ballots,
        (if b.id == ballot_id then { b with is_active := false } else b) = b := by
      intro b hb
      have hfalse : (b.id == ballot_id) = false := by
        rw [beq_eq_false_iff_ne]
        exact hab b hb
      rw [if_neg (by simp [hfalse])]
    have h1 : s.ballots.map
        (fun b => if b.id == ballot_id then { b with is_active := false } else b)
        = s.ballots :=
      calc s.ballots.map
            (fun b => if b.id == ballot_id then { b with is_active := false } else b)
          = s.ballots.map (fun b => b) := List.map_congr_left h2
        _ = s.ballots := by simp
    show { s with ballots := _ } = s
    rw [h1]
  · intro i h1 h2
    have hm : (close_ballot s ballot_id).ballots.get ⟨i, h2⟩ =
        (if (s.ballots.get ⟨i, h1⟩).id == ballot_id then
          { s.ballots.get ⟨i, h1⟩ with is_active := false }
         else s.ballots.get ⟨i, h1⟩) := by
      simp [close_ballot]
    by_cases hid : (s.ballots.get ⟨i, h1⟩).id = ballot_id
    · rw [hm, if_pos (by rw [beq_iff_eq]; exact hid)]
      exact ⟨rfl, rfl, rfl, rfl, rfl, rfl, rfl, by rw [if_pos hid]⟩
    · rw [hm, if_neg (by simp only [beq_iff_eq]; exact hid)]
      exact ⟨rfl, rfl, rfl, rfl, rfl, rfl, rfl, by rw [if_neg hid]⟩

/-- Witness for C10: closing an absent id leaves the concrete store `sW`
untouched; closing `"b1"` deactivates exactly the first stored ballot and
leaves the second one's flag as it was. -/
theorem close_ballot_spec_witness :
    close_ballot sW "nope" = sW ∧
    (close_ballot sW "b1").votes = sW.votes ∧
    (close_ballot sW "b1").ballots.length = sW.ballots.length ∧
    ((close_ballot sW "b1").ballots.get ⟨0, by decide⟩).is_active = false ∧
    ((close_ballot sW "b1").ballots.get ⟨1, by decide⟩).is_active = bC.is_active := by
  have h1 := close_ballot_spec sW "nope"
  have h2 := close_ballot_spec sW "b1"
  refine ⟨h1.2.2.1 (by decide), h2.1, h2.2.2.2.1, ?_, ?_⟩
  · have h3 := (h2.2.2.2.2 0 (by decide) (by decide)).2.2.2.2.2.2.2
    rw [h3]
    decide
  · have h3 := (h2.2.2.2.2 1 (by decide) (by decide)).2.2.2.2.2.2.2
    rw [h3]
    decide

/-- C6: for an existing active ballot, a cast strictly before `start_time`
or strictly after `end_time` fails with an `InvalidState`-kind error
leaving the state unchanged; within the window (boundaries included, i.e.
neither strict comparison holds) the window guard can not be the failure;
and an inactive ballot fails with the `InvalidState`-kind closed error
regardless of the window. -/
theorem cast_vote_window (hash : String → String) (s : DBState)
    (ballot_id voter_id choice now voteId : String) (ballot : Ballot)
    (hb : findBallot s ballot_id = some ballot) :
    (ballot.is_active = true →
      (strLt now ballot.start_time = true ∨ strLt ballot.end_time now = true) →
      ∃ e, cast_vote hash s ballot_id voter_id choice now voteId = (.error e, s) ∧
        kindOf e = .invalidState) ∧
    (ballot.is_active = true → strLt now ballot.start_time = false →
      strLt ballot.end_time now = false →
      (cast_vote hash s ballot_id voter_id choice now voteId).1 ≠ .error .notYetOpen ∧
      (cast_vote hash s ballot_id voter_id choice now voteId).1 ≠ .error .windowClosed) ∧
    (ballot.is_active = false →
      cast_vote hash s ballot_id voter_id choice now voteId =
        (.error (.ballotClosed ballot_id), s) ∧
      kindOf (.ballotClosed ballot_id) = .invalidState) := by
  refine ⟨?_, ?_, ?_⟩
  · intro hact hdisj
    by_cases h0 : strLt now ballot.start_time = true
    · refine ⟨.notYetOpen, ?_, rfl⟩
      unfold cast_vote castVoteGuards
      rw [hb]
      simp [hact, h0]
    · have h0f : strLt now ballot.start_time = false := by
        cases hx : strLt now ballot.start_time
        · rfl
        · exact absurd hx h0
      have h1 : strLt ballot.end_time now = true := by
        rcases hdisj with h | h
        · exact absurd h h0
        · exact h
      refine ⟨.windowClosed, ?_, rfl⟩
      unfold cast_vote castVoteGuards
      rw [hb]
      simp [hact, h0f, h1]
  · intro hact h1 h2
    constructor
    · intro hcontra
      unfold cast_vote at hcontra
      generalize hg : castVoteGuards s ballot_id voter_id choice now = r at hcontra
      cases r with
      | some e2 =>
        have he : e2 = .notYetOpen := by
          injection hcontra with h3
        subst he
        rcases guards_window_pass s ballot_id voter_id choice now ballot hb hact h1 h2 _ hg
          with h4 | h4 | h4 <;> exact absurd h4 (by decide)
      | none =>
        rcases castVoteCommit_error_tag hash s ballot_id voter_id choice now voteId _ hcontra
          with h4 | h4 <;> exact absurd h4 (by decide)
    · intro hcontra
      unfold cast_vote at hcontra
      generalize hg : castVoteGuards s ballot_id voter_id choice now = r at hcontra
      cases r with
      | some e2 =>
        have he : e2 = .windowClosed := by
          injection hcontra with h3
        subst he
        rcases guards_window_pass s ballot_id voter_id choice now ballot hb hact h1 h2 _ hg
          with h4 | h4 | h4 <;> exact absurd h4 (by decide)
      | none =>
        rcases castVoteCommit_error_tag hash s ballot_id voter_id choice now voteId _ hcontra
          with h4 | h4 <;> exact absurd h4 (by decide)
  · intro hin
    refine ⟨?_, rfl⟩
    unfold cast_vote castVoteGuards
    rw [hb]
    simp [hin]

/-- Witness for C6: on the concrete store `sW`, casting before the window
and after the window each fail with an `InvalidState`-kind error; casting
on the deactivated ballot `bC` fails with the closed error although the
time is inside its window; and in-window casting on `bW` is not rejected by
the window guard. -/
theorem cast_vote_window_witness :
    (∃ e, cast_vote id sW "b1" "v1" "Yes" "2020-01-01" "vt1" = (.error e, sW) ∧
      kindOf e = .invalidState) ∧
    (∃ e, cast_vote id sW "b1" "v1" "Yes" "2026-05-05" "vt1" = (.error e, sW) ∧
      kindOf e = .invalidState) ∧
    cast_vote id sW "b2" "v1" "Yes" nowW "vt1" = (.error (.ballotClosed "b2"), sW) ∧
    (cast_vote id sW "b1" "v1" "Yes" nowW "vt1").1 ≠ .error .notYetOpen ∧
    (cast_vote id sW "b1" "v1" "Yes" nowW "vt1").1 ≠ .error .windowClosed := by
  refine ⟨?_, ?_, ?_, ?_, ?_⟩
  · exact (cast_vote_window id sW "b1" "v1" "Yes" "2020-01-01" "vt1" bW rfl).1 rfl (Or.inl rfl)
  · exact (cast_vote_window id sW "b1" "v1" "Yes" "2026-05-05" "vt1" bW rfl).1 rfl (Or.inr rfl)
  · exact ((cast_vote_window id sW "b2" "v1" "Yes" nowW "vt1" bC rfl).2.2 rfl).1
  · exact ((cast_vote_window id sW "b1" "v1" "Yes" nowW "vt1" bW rfl).2.1 rfl rfl rfl).1
  · exact ((cast_vote_window id sW "b1" "v1" "Yes" nowW "vt1" bW rfl).2.1 rfl rfl rfl).2

/-- C2: `cast_vote` evaluates its guards in the fixed source order — ballot
existence, active flag, time window, choice membership, eligibility,
duplicate pre-check — and the first failing guard determines the error: its
raise site (and thus its message) is distinct from every other guard's, and
its classification under the spec taxonomy is `NotFound`, `InvalidState`
(guards 2 and 3), `InvalidInput`, `Forbidden`, `Conflict` respectively. -/
theorem cast_vote_guard_order (hash : String → String) (s : DBState)
    (ballot_id voter_id choice now voteId : String) :
    (findBallot s ballot_id = none →
      (cast_vote hash s ballot_id voter_id choice now voteId).1 =
        .error (.ballotNotFound ballot_id) ∧
      kindOf (.ballotNotFound ballot_id) = .notFound) ∧
    (∀ ballot, findBallot s ballot_id = some ballot →
      (ballot.is_active = false →
        (cast_vote hash s ballot_id voter_id choice now voteId).1 =
          .error (.ballotClosed ballot_id) ∧
        kindOf (.ballotClosed ballot_id) = .invalidState) ∧
      (ballot.is_active = true → strLt now ballot.start_time = true →
        (cast_vote hash s ballot_id voter_id choice now voteId).1 = .error .notYetOpen ∧
        kindOf .notYetOpen = .invalidState) ∧
      (ballot.is_active = true → strLt now ballot.start_time = false →
        strLt ballot.end_time now = true →
        (cast_vote hash s ballot_id voter_id choice now voteId).1 = .error .windowClosed ∧
        kindOf .windowClosed = .invalidState) ∧
      (ballot.is_active = true → strLt now ballot.start_time = false →
        strLt ballot.end_time now = false → ballot.options.contains choice = false →
        (cast_vote hash s ballot_id voter_id choice now voteId).1 =
          .error (.invalidChoice choice ballot.options) ∧
        kindOf (.invalidChoice choice ballot.options) = .invalidInput) ∧
      (ballot.is_active = true → strLt now ballot.start_time = false →
        strLt ballot.end_time now = false → ballot.options.contains choice = true →
        validate_eligibility s voter_id ballot_id = false →
        (cast_vote hash s ballot_id voter_id choice now voteId).1 =
          .error (.notEligible voter_id ballot_id) ∧
        kindOf (.notEligible voter_id ballot_id) = .forbidden) ∧
      (ballot.is_active = true → strLt now ballot.start_time = false →
        strLt ballot.end_time now = false → ballot.options.contains choice = true →
        validate_eligibility s voter_id ballot_id = true →
        hasVoted s voter_id ballot_id = true →
        (cast_vote hash s ballot_id voter_id choice now voteId).1 =
          .error (.alreadyVoted voter_id ballot_id) ∧
        kindOf (.alreadyVoted voter_id ballot_id) = .conflict) ∧
      List.Pairwise Ne [VError.ballotNotFound ballot_id, VError.ballotClosed ballot_id,
        VError.notYetOpen, VError.windowClosed, VError.invalidChoice choice ballot.options,
        VError.notEligible voter_id ballot_id, VError.alreadyVoted voter_id ballot_id]) := by
  constructor
  · intro hb
    refine ⟨?_, rfl⟩
    unfold cast_vote castVoteGuards
    rw [hb]
  · intro ballot hb
    have hgf := castVoteGuards_found s ballot_id voter_id choice now ballot hb
    refine ⟨?_, ?_, ?_, ?_, ?_, ?_, ?_⟩
    · intro hin
      refine ⟨?_, rfl⟩
      unfold cast_vote
      rw [hgf, if_pos hin]
    · intro hact h1
      refine ⟨?_, rfl⟩
      unfold cast_vote
      rw [hgf, if_neg (by simp [hact]), if_pos h1]
    · intro hact h1 h2
      refine ⟨?_, rfl⟩
      unfold cast_vote
      rw [hgf, if_neg (by simp [hact]), if_neg (by simp [h1]), if_pos h2]
    · intro hact h1 h2 hc
      refine ⟨?_, rfl⟩
      unfold cast_vote
      rw [hgf, if_neg (by simp [hact]), if_neg (by simp [h1]), if_neg (by simp [h2]),
        if_pos hc]
    · intro hact h1 h2 hc he
      refine ⟨?_, rfl⟩
      unfold cast_vote
      rw [hgf, if_neg (by simp [hact]), if_neg (by simp [h1]), if_neg (by simp [h2]),
        if_neg (by rw [hc]; simp), if_pos he]
    · intro hact h1 h2 hc he hv
      refine ⟨?_, rfl⟩
      unfold cast_vote
      rw [hgf, if_neg (by simp [hact]), if_neg (by simp [h1]), if_neg (by simp [h2]),
        if_neg (by rw [hc]; simp), if_neg (by rw [he]; simp), if_pos hv]
    · have hmap : List.Pairwise Ne ([0, 1, 2, 3, 4, 5, 6] : List Nat) := by decide
      have h7 : List.Pairwise Ne (List.map errTag
          [VError.ballotNotFound ballot_id, VError.ballotClosed ballot_id,
           VError.notYetOpen, VError.windowClosed, VError.invalidChoice choice ballot.options,
           VError.notEligible voter_id ballot_id, VError.alreadyVoted voter_id ballot_id]) :=
        hmap
      exact (List.pairwise_map.mp h7).imp (fun h he => h (congrArg errTag he))

/-- Witness for C2: concrete first-failing-guard runs on `sW` — an absent
ballot id, an inactive ballot among later guards also violated, an unknown
choice, an unregistered voter, and a duplicate attempt each produce exactly
their own guard's error. -/
theorem cast_vote_guard_order_witness :
    (cast_vote id sW "zz" "v1" "Yes" nowW "vt1").1 = .error (.ballotNotFound "zz") ∧
    (cast_vote id sW "b2" "nobody" "Maybe" nowW "vt1").1 = .error (.ballotClosed "b2") ∧
    (cast_vote id sW "b1" "v1" "Maybe" nowW "vt1").1 =
      .error (.invalidChoice "Maybe" ["Yes", "No"]) ∧
    (cast_vote id sW "b1" "v2" "Yes" nowW "vt1").1 = .error (.notEligible "v2" "b1") ∧
    (cast_vote id sW2 "b1" "v1" "No" nowW "vt2").1 = .error (.alreadyVoted "v1" "b1") := by
  refine ⟨?_, ?_, ?_, ?_, ?_⟩
  · exact ((cast_vote_guard_order id sW "zz" "v1" "Yes" nowW "vt1").1 rfl).1
  · exact (((cast_vote_guard_order id sW "b2" "nobody" "Maybe" nowW "vt1").2 bC rfl).1 rfl).1
  · exact (((cast_vote_guard_order id sW "b1" "v1" "Maybe" nowW "vt1").2 bW
      rfl).2.2.2.1 rfl rfl rfl rfl).1
  · exact (((cast_vote_guard_order id sW "b1" "v2" "Yes" nowW "vt1").2 bW
      rfl).2.2.2.2.1 rfl rfl rfl rfl rfl).1
  · exact (((cast_vote_guard_order id sW2 "b1" "v1" "No" nowW "vt2").2 bW
      rfl).2.2.2.2.2.1 rfl rfl rfl rfl rfl rfl).1

theorem signRaw_data (a b c d : String) :
    (signRaw a b c d).data = a.data ++ ':' :: (b.data ++ ':' :: (c.data ++ ':' :: d.data)) := by
  show (a ++ ":" ++ b ++ ":" ++ c ++ ":" ++ d).data = _
  simp [String.data_append, show (":" : String).data = [':'] from rfl, List.append_assoc]

theorem signRaw_ne_voter (a1 a2 b c d : String) (h : a1 ≠ a2) :
    signRaw a1 b c d ≠ signRaw a2 b c d := by
  intro he
  apply h
  have hd := congrArg String.data he
  rw [signRaw_data, signRaw_data] at hd
  exact String.ext (List.append_cancel_right hd)

theorem signRaw_ne_ballot (a b1 b2 c d : String) (h : b1 ≠ b2) :
    signRaw a b1 c d ≠ signRaw a b2 c d := by
  intro he
  apply h
  have hd := congrArg String.data he
  rw [signRaw_data, signRaw_data] at hd
  have h1 := List.append_cancel_left hd
  injection h1 with h1a h2
  exact String.ext (List.append_cancel_right h2)

theorem signRaw_ne_choice (a b c1 c2 d : String) (h : c1 ≠ c2) :
    signRaw a b c1 d ≠ signRaw a b c2 d := by
  intro he
  apply h
  have hd := congrArg String.data he
  rw [signRaw_data, signRaw_data] at hd
  have h1 := List.append_cancel_left hd
  injection h1 with h1a h2
  have h3 := List.append_cancel_left h2
  injection h3 with h3a h4
  exact String.ext (List.append_cancel_right h4)

theorem signRaw_ne_time (a b c d1 d2 : String) (h : d1 ≠ d2) :
    signRaw a b c d1 ≠ signRaw a b c d2 := by
  intro he
  apply h
  have hd := congrArg String.data he
  rw [signRaw_data, signRaw_data] at hd
  have h1 := List.append_cancel_left hd
  injection h1 with h1a h2
  have h3 := List.append_cancel_left h2
  injection h3 with h3a h4
  have h5 := List.append_cancel_left h4
  injection h5 with h5a h6
  exact String.ext h6

theorem cast_vote_ok_vote (hash : String → String) (s : DBState)
    (ballot_id voter_id choice now voteId : String) (v : Vote) (s2 : DBState)
    (h : cast_vote hash s ballot_id voter_id choice now voteId = (.ok v, s2)) :
    v = mkVote hash ballot_id voter_id choice now voteId := by
  unfold cast_vote at h
  generalize castVoteGuards s ballot_id voter_id choice now = r at h
  cases r with
  | some e2 => simp at h
  | none =>
    unfold castVoteCommit at h
    generalize insertVote s.votes (mkVote hash ballot_id voter_id choice now voteId) = r2 at h
    cases r2 with
    | error e3 => simp at h
    | ok vs =>
      have h1 := congrArg Prod.fst h
      injection h1 with h2
      exact h2.symm

/-- C3: every vote returned by a successful `cast_vote` verifies, and —
assuming the hash is collision-free — a vote obtained from it by changing
any single one of `choice`, `voter_id`, `ballot_id`, `timestamp` while
keeping the original signature fails verification. -/
theorem verify_vote_tamper_detection (hash : String → String)
    (hinj : Function.Injective hash) (s : DBState)
    (ballot_id voter_id choice now voteId : String) (v : Vote) (s2 : DBState)
    (h : cast_vote hash s ballot_id voter_id choice now voteId = (.ok v, s2)) :
    verify_vote hash v = true ∧
    (∀ c2, c2 ≠ v.choice → verify_vote hash { v with choice := c2 } = false) ∧
    (∀ w2, w2 ≠ v.voter_id → verify_vote hash { v with voter_id := w2 } = false) ∧
    (∀ b2, b2 ≠ v.ballot_id → verify_vote hash { v with ballot_id := b2 } = false) ∧
    (∀ t2, t2 ≠ v.timestamp → verify_vote hash { v with timestamp := t2 } = false) := by
  have hv := cast_vote_ok_vote hash s ballot_id voter_id choice now voteId v s2 h
  subst hv
  refine ⟨beq_self_eq_true _, ?_, ?_, ?_, ?_⟩
  · intro c2 hne
    show (hash (signRaw voter_id ballot_id choice now)
        == hash (signRaw voter_id ballot_id c2 now)) = false
    rw [beq_eq_false_iff_ne]
    intro heq
    exact signRaw_ne_choice voter_id ballot_id choice c2 now
      (fun h2 => hne h2.symm) (hinj heq)
  · intro w2 hne
    show (hash (signRaw voter_id ballot_id choice now)
        == hash (signRaw w2 ballot_id choice now)) = false
    rw [beq_eq_false_iff_ne]
    intro heq
    exact signRaw_ne_voter voter_id w2 ballot_id choice now
      (fun h2 => hne h2.symm) (hinj heq)
  · intro b2 hne
    show (hash (signRaw voter_id ballot_id choice now)
        == hash (signRaw voter_id b2 choice now)) = false
    rw [beq_eq_false_iff_ne]
    intro heq
    exact signRaw_ne_ballot voter_id ballot_id b2 choice now
      (fun h2 => hne h2.symm) (hinj heq)
  · intro t2 hne
    show (hash (signRaw voter_id ballot_id choice now)
        == hash (signRaw voter_id ballot_id choice t2)) = false
    rw [beq_eq_false_iff_ne]
    intro heq
    exact signRaw_ne_time voter_id ballot_id choice now t2
      (fun h2 => hne h2.symm) (hinj heq)

/-- Witness for C3: the concrete vote cast on `sW` verifies, and each
single-field alteration fails verification, with the hash instantiated to
the (injective) identity function. -/
theorem verify_vote_tamper_detection_witness :
    verify_vote id vW = true ∧
    verify_vote id { vW with choice := "No" } = false ∧
    verify_vote id { vW with voter_id := "v2" } = false ∧
    verify_vote id { vW with ballot_id := "b2" } = false ∧
    verify_vote id { vW with timestamp := "2025-07-01" } = false := by
  have h := verify_vote_tamper_detection id (fun a b hh => hh) sW "b1" "v1" "Yes" nowW "vt1"
    vW sW2 rfl
  exact ⟨h.1, h.2.1 "No" (by decide), h.2.2.1 "v2" (by decide),
    h.2.2.2.1 "b2" (by decide), h.2.2.2.2 "2025-07-01" (by decide)⟩

theorem mem_dictKeysAux (y : String) : ∀ (l seen : List String),
    (y ∈ dictKeysAux seen l ↔ y ∈ l ∧ y ∉ seen) := by
  intro l
  induction l with
  | nil => intro seen; simp [dictKeysAux]
  | cons x xs ih =>
    intro seen
    unfold dictKeysAux
    by_cases hx : seen.contains x = true
    · rw [if_pos hx, ih seen]
      constructor
      · rintro ⟨h1, h2⟩
        exact ⟨List.mem_cons_of_mem x h1, h2⟩
      · rintro ⟨h1, h2⟩
        rcases List.mem_cons.mp h1 with h3 | h3
        · subst h3
          exact absurd (List.elem_iff.mp hx) h2
        · exact ⟨h3, h2⟩
    · rw [if_neg hx, List.mem_cons, ih (x :: seen)]
      constructor
      · rintro (h1 | ⟨h1, h2⟩)
        · subst h1
          exact ⟨List.mem_cons_self _ _, fun hc => hx (List.elem_iff.mpr hc)⟩
        · exact ⟨List.mem_cons_of_mem x h1, fun hc => h2 (List.mem_cons_of_mem x hc)⟩
      · rintro ⟨h1, h2⟩
        rcases List.mem_cons.mp h1 with h3 | h3
        · exact Or.inl h3
        · by_cases hyx : y = x
          · exact Or.inl hyx
          · refine Or.inr ⟨h3, ?_⟩
            intro hc
            rcases List.mem_cons.mp hc with h4 | h4
            · exact hyx h4
            · exact h2 h4

theorem mem_dictKeys (y : String) (l : List String) : y ∈ dictKeys l ↔ y ∈ l := by
  unfold dictKeys
  rw [mem_dictKeysAux]
  simp

theorem nodup_dictKeysAux : ∀ (l seen : List String), (dictKeysAux seen l).Nodup := by
  intro l
  induction l with
  | nil => intro seen; simp [dictKeysAux]
  | cons x xs ih =>
    intro seen
    unfold dictKeysAux
    by_cases hx : seen.contains x = true
    · rw [if_pos hx]; exact ih seen
    · rw [if_neg hx]
      refine List.nodup_cons.mpr ⟨?_, ih (x :: seen)⟩
      intro hc
      exact ((mem_dictKeysAux x xs (x :: seen)).mp hc).2 (List.mem_cons_self x seen)

theorem nodup_dictKeys (l : List String) : (dictKeys l).Nodup := nodup_dictKeysAux l []

theorem foldl_bumpCount (votes : List Vote) :
    ∀ init : List (String × Nat),
      votes.foldl bumpCount init =
        init.map (fun p => (p.1, p.2 + countFor votes p.1)) := by
  induction votes with
  | nil =>
    intro init
    simp [countFor]
  | cons v votes ih =>
    intro init
    rw [List.foldl_cons, ih (bumpCount init v)]
    unfold bumpCount
    rw [List.map_map]
    apply List.map_congr_left
    intro p hp
    by_cases hc : p.1 = v.choice
    · have hb : (p.1 == v.choice) = true := beq_iff_eq.mpr hc
      have hb2 : (v.choice == p.1) = true := beq_iff_eq.mpr hc.symm
      simp only [Function.comp_apply, hb, if_true, countFor, List.countP_cons, hb2]
      simp
      omega
    · have hb : (p.1 == v.choice) = false := by
        rw [beq_eq_false_iff_ne]
        exact hc
      have hb2 : (v.choice == p.1) = false := by
        rw [beq_eq_false_iff_ne]
        exact fun h => hc h.symm
      simp only [Function.comp_apply, hb, countFor, List.countP_cons, hb2]
      simp

theorem tallyCounts_eq (options : List String) (votes : List Vote) :
    tallyCounts options votes = (dictKeys options).map (fun k => (k, countFor votes k)) := by
  unfold tallyCounts
  rw [foldl_bumpCount, List.map_map]
  apply List.map_congr_left
  intro k hk
  simp

theorem tally_found (round2 : Rat → Rat) (s : DBState) (ballot_id : String) (ballot : Ballot)
    (hb : findBallot s ballot_id = some ballot) :
    tally round2 s ballot_id = .ok
      { ballot_id := ballot_id, title := ballot.title,
        total_votes := ((tallyCounts ballot.options (votesFor s ballot_id)).map Prod.snd).sum,
        counts := tallyCounts ballot.options (votesFor s ballot_id),
        percentages := (tallyCounts ballot.options (votesFor s ballot_id)).map (fun p =>
          (p.1,
            if ((tallyCounts ballot.options (votesFor s ballot_id)).map Prod.snd).sum = 0
            then (0 : Rat)
            else round2 (100 * (p.2 : Rat) /
              (((tallyCounts ballot.options (votesFor s ballot_id)).map Prod.snd).sum : Rat)))),
        winner :=
          if ((tallyCounts ballot.options (votesFor s ballot_id)).map Prod.snd).sum = 0
          then none else pyMaxKey (tallyCounts ballot.options (votesFor s ballot_id)) } := by
  unfold tally
  rw [hb]

/-- C5: on an existing ballot with zero committed votes, `tally` reports
`total_votes = 0`, a zero count entry for every declared option (and only
for declared options), a `0.0` percentage entry for every declared option,
and no winner. -/
theorem tally_zero_votes (round2 : Rat → Rat) (s : DBState) (ballot_id : String)
    (ballot : Ballot) (summary : Summary)
    (hb : findBallot s ballot_id = some ballot)
    (hv : votesFor s ballot_id = [])
    (ht : tally round2 s ballot_id = .ok summary) :
    summary.total_votes = 0 ∧
    (∀ o ∈ ballot.options, (o, 0) ∈ summary.counts) ∧
    (∀ p ∈ summary.counts, p.2 = 0 ∧ p.1 ∈ ballot.options) ∧
    (∀ o ∈ ballot.options, (o, (0 : Rat)) ∈ summary.percentages) ∧
    (∀ p ∈ summary.percentages, p.2 = 0) ∧
    summary.winner = none := by
  rw [tally_found round2 s ballot_id ballot hb] at ht
  injection ht with ht2
  subst ht2
  have hc : tallyCounts ballot.options ([] : List Vote) =
      (dictKeys ballot.options).map (fun k => (k, 0)) := by
    rw [tallyCounts_eq]
    apply List.map_congr_left
    intro k hk
    simp [countFor]
  have hzero : (List.map (Prod.snd ∘ fun k : String => (k, (0 : Nat)))
      (dictKeys ballot.options)).sum = 0 :=
    List.sum_eq_zero (fun x hx => by
      obtain ⟨k2, hk2, hke2⟩ := List.mem_map.mp hx
      rw [← hke2]
      rfl)
  have htot : ((tallyCounts ballot.options ([] : List Vote)).map Prod.snd).sum = 0 := by
    rw [hc, List.map_map]
    exact hzero
  refine ⟨?_, ?_, ?_, ?_, ?_, ?_⟩
  · show ((tallyCounts ballot.options (votesFor s ballot_id)).map Prod.snd).sum = 0
    rw [hv]
    exact htot
  · intro o ho
    show (o, 0) ∈ tallyCounts ballot.options (votesFor s ballot_id)
    rw [hv, hc]
    exact List.mem_map.mpr ⟨o, (mem_dictKeys o ballot.options).mpr ho, rfl⟩
  · intro p hp
    have hp2 : p ∈ tallyCounts ballot.options (votesFor s ballot_id) := hp
    rw [hv, hc] at hp2
    obtain ⟨k, hk, hke⟩ := List.mem_map.mp hp2
    subst hke
    exact ⟨rfl, (mem_dictKeys k ballot.options).mp hk⟩
  · intro o ho
    have hm : o ∈ dictKeys ballot.options := (mem_dictKeys o ballot.options).mpr ho
    have hperc : (tallyCounts ballot.options (votesFor s ballot_id)).map (fun p =>
        (p.1,
          if ((tallyCounts ballot.options (votesFor s ballot_id)).map Prod.snd).sum = 0
          then (0 : Rat)
          else round2 (100 * (p.2 : Rat) /
            (((tallyCounts ballot.options (votesFor s ballot_id)).map Prod.snd).sum : Rat))))
        = (dictKeys ballot.options).map (fun k => (k, (0 : Rat))) := by
      rw [hv, hc, List.map_map]
      apply List.map_congr_left
      intro k hk
      simp only [Function.comp_apply]
      have hzero2 : (List.map Prod.snd (List.map (fun k : String => (k, (0 : Nat)))
          (dictKeys ballot.options))).sum = 0 := by
        rw [List.map_map]
        exact hzero
      rw [if_pos hzero2]
    show (o, (0 : Rat)) ∈ (tallyCounts ballot.options (votesFor s ballot_id)).map _
    rw [hperc]
    exact List.mem_map.mpr ⟨o, hm, rfl⟩
  · intro p hp
    have hperc : (tallyCounts ballot.options (votesFor s ballot_id)).map (fun p =>
        (p.1,
          if ((tallyCounts ballot.options (votesFor s ballot_id)).map Prod.snd).sum = 0
          then (0 : Rat)
          else round2 (100 * (p.2 : Rat) /
            (((tallyCounts ballot.options (votesFor s ballot_id)).map Prod.snd).sum : Rat))))
        = (dictKeys ballot.options).map (fun k => (k, (0 : Rat))) := by
      rw [hv, hc, List.map_map]
      apply List.map_congr_left
      intro k hk
      simp only [Function.comp_apply]
      have hzero2 : (List.map Prod.snd (List.map (fun k : String => (k, (0 : Nat)))
          (dictKeys ballot.options))).sum = 0 := by
        rw [List.map_map]
        exact hzero
      rw [if_pos hzero2]
    have hp2 : p ∈ (tallyCounts ballot.options (votesFor s ballot_id)).map (fun p =>
      (p.1,
        if ((tallyCounts ballot.options (votesFor s ballot_id)).map Prod.snd).sum = 0
        then (0 : Rat)
        else round2 (100 * (p.2 : Rat) /
          (((tallyCounts ballot.options (votesFor s ballot_id)).map Prod.snd).sum : Rat)))) :=
      hp
    rw [hperc] at hp2
    obtain ⟨q, hq, hqe⟩ := List.mem_map.mp hp2
    subst hqe
    rfl
  · show (if ((tallyCounts ballot.options (votesFor s ballot_id)).map Prod.snd).sum = 0
      then none else pyMaxKey (tallyCounts ballot.options (votesFor s ballot_id))) = none
    rw [hv, if_pos htot]

/-- Witness for C5: `tally` on the vote-less concrete store `sW` yields the
concrete summary `sumW` with zero totals, zero counts and percentages for
both declared options, and no winner. -/
theorem tally_zero_votes_witness :
    sumW.total_votes = 0 ∧ ("Yes", (0 : Nat)) ∈ sumW.counts ∧
    ("No", (0 : Nat)) ∈ sumW.counts ∧ (∀ p ∈ sumW.percentages, p.2 = 0) ∧
    sumW.winner = none := by
  have h := tally_zero_votes (fun q => q) sW "b1" bW sumW rfl rfl rfl
  exact ⟨h.1, h.2.1 "Yes" (by decide), h.2.1 "No" (by decide), h.2.2.2.2.1, h.2.2.2.2.2⟩

theorem foldl_pyStep_spec (rest : List (String × Nat)) :
    ∀ p : String × Nat,
      (rest.foldl pyStep p = p ∨ rest.foldl pyStep p ∈ rest) ∧
      p.2 ≤ (rest.foldl pyStep p).2 ∧ (∀ q ∈ rest, q.2 ≤ (rest.foldl pyStep p).2) := by
  induction rest with
  | nil =>
    intro p
    exact ⟨Or.inl rfl, le_refl _, by simp⟩
  | cons q rest ih =>
    intro p
    rw [List.foldl_cons]
    obtain ⟨hmem, hle, hall⟩ := ih (pyStep p q)
    have hpq : p.2 ≤ (pyStep p q).2 := by
      unfold pyStep
      by_cases h : p.2 < q.2
      · rw [if_pos h]; exact le_of_lt h
      · rw [if_neg h]
    have hqq : q.2 ≤ (pyStep p q).2 := by
      unfold pyStep
      by_cases h : p.2 < q.2
      · rw [if_pos h]
      · rw [if_neg h]; exact Nat.le_of_not_lt h
    refine ⟨?_, le_trans hpq hle, ?_⟩
    · rcases hmem with h1 | h1
      · rw [h1]
        by_cases h : p.2 < q.2
        · have hs : pyStep p q = q := by unfold pyStep; rw [if_pos h]
          rw [hs]
          exact Or.inr (List.mem_cons_self q rest)
        · have hs : pyStep p q = p := by unfold pyStep; rw [if_neg h]
          rw [hs]
          exact Or.inl rfl
      · exact Or.inr (List.mem_cons_of_mem q h1)
    · intro q2 hq2
      rcases List.mem_cons.mp hq2 with h2 | h2
      · rw [h2]; exact le_trans hqq hle
      · exact hall q2 h2

theorem foldl_pyStep_first (rest : List (String × Nat)) :
    ∀ p : String × Nat,
      (rest.foldl pyStep p = p ∧ ∀ q ∈ rest, q.2 ≤ p.2) ∨
      (∃ l1 l2, rest = l1 ++ (rest.foldl pyStep p) :: l2 ∧
        p.2 < (rest.foldl pyStep p).2 ∧ (∀ q ∈ l1, q.2 < (rest.foldl pyStep p).2) ∧
        (∀ q ∈ l2, q.2 ≤ (rest.foldl pyStep p).2)) := by
  induction rest with
  | nil =>
    intro p
    exact Or.inl ⟨rfl, by simp⟩
  | cons q rest ih =>
    intro p
    rw [List.foldl_cons]
    by_cases hpq : p.2 < q.2
    · have hstep : pyStep p q = q := by unfold pyStep; rw [if_pos hpq]
      rw [hstep]
      rcases ih q with ⟨h1, h2⟩ | ⟨l1, l2, h1, h2, h3, h4⟩
      · right
        refine ⟨[], rest, ?_, ?_, by simp, ?_⟩
        · rw [h1, List.nil_append]
        · rw [h1]; exact hpq
        · intro q2 hq2; rw [h1]; exact h2 q2 hq2
      · right
        refine ⟨q :: l1, l2, ?_, lt_trans hpq h2, ?_, h4⟩
        · rw [List.cons_append, ← h1]
        · intro q2 hq2
          rcases List.mem_cons.mp hq2 with h5 | h5
          · rw [h5]; exact h2
          · exact h3 q2 h5
    · have hstep : pyStep p q = p := by unfold pyStep; rw [if_neg hpq]
      rw [hstep]
      rcases ih p with ⟨h1, h2⟩ | ⟨l1, l2, h1, h2, h3, h4⟩
      · left
        refine ⟨h1, ?_⟩
        intro q2 hq2
        rcases List.mem_cons.mp hq2 with h5 | h5
        · rw [h5]; exact Nat.le_of_not_lt hpq
        · exact h2 q2 h5
      · right
        refine ⟨q :: l1, l2, ?_, h2, ?_, h4⟩
        · rw [List.cons_append, ← h1]
        · intro q2 hq2
          rcases List.mem_cons.mp hq2 with h5 | h5
          · rw [h5]; exact lt_of_le_of_lt (Nat.le_of_not_lt hpq) h2
          · exact h3 q2 h5

theorem find?_append_of_false {α : Type} (P : α → Bool) (l1 l2 : List α)
    (h : ∀ x ∈ l1, ¬ P x = true) : (l1 ++ l2).find? P = l2.find? P := by
  induction l1 with
  | nil => rfl
  | cons x xs ih =>
    rw [List.cons_append]
    have hx : P x = false := by
      cases hp : P x
      · rfl
      · exact absurd hp (h x (List.mem_cons_self x xs))
    rw [List.find?_cons_of_neg _ (by rw [hx]; simp)]
    exact ih (fun y hy => h y (List.mem_cons_of_mem x hy))

theorem pyMax_first_max (l : List (String × Nat)) :
    pyMax l = l.find? (fun p => l.all (fun q => decide (q.2 ≤ p.2))) := by
  cases l with
  | nil => rfl
  | cons p rest =>
    show some (rest.foldl pyStep p) = _
    obtain ⟨hmem, hple, hall⟩ := foldl_pyStep_spec rest p
    rcases foldl_pyStep_first rest p with ⟨h1, h2⟩ | ⟨l1, l2, h1, h2, h3, h4⟩
    · rw [h1]
      have hpred : (fun x : String × Nat =>
          (p :: rest).all (fun q => decide (q.2 ≤ x.2))) p = true := by
        rw [List.all_eq_true]
        intro q hq
        rcases List.mem_cons.mp hq with h5 | h5
        · rw [h5]; simp
        · exact decide_eq_true (h2 q h5)
      rw [@List.find?_cons_of_pos (String × Nat)
        (fun x => (p :: rest).all (fun q => decide (q.2 ≤ x.2))) p rest hpred]
    · generalize hm : rest.foldl pyStep p = m at h1 h2 h3 h4 ⊢
      have hL : p :: rest = (p :: l1) ++ m :: l2 := by rw [h1, List.cons_append]
      rw [hL]
      have hub : ∀ q ∈ (p :: l1) ++ m :: l2, q.2 ≤ m.2 := by
        intro q hq
        rcases List.mem_append.mp hq with h5 | h5
        · rcases List.mem_cons.mp h5 with h6 | h6
          · rw [h6]; exact le_of_lt h2
          · exact le_of_lt (h3 q h6)
        · rcases List.mem_cons.mp h5 with h6 | h6
          · rw [h6]
          · exact h4 q h6
      have hfail : ∀ x : String × Nat, x.2 < m.2 →
          (((p :: l1) ++ m :: l2).all (fun q => decide (q.2 ≤ x.2))) = false := by
        intro x hx
        rw [List.all_eq_false]
        refine ⟨m, List.mem_append_right _ (List.mem_cons_self m l2), ?_⟩
        simp only [decide_eq_true_eq]
        exact Nat.not_le.mpr hx
      have hfalse : ∀ x ∈ (p :: l1),
          ¬ (((p :: l1) ++ m :: l2).all (fun q => decide (q.2 ≤ x.2))) = true := by
        intro x hx
        have hxlt : x.2 < m.2 := by
          rcases List.mem_cons.mp hx with h6 | h6
          · rw [h6]; exact h2
          · exact h3 x h6
        rw [hfail x hxlt]
        simp
      have hstep := find?_append_of_false
        (fun x => (((p :: l1) ++ m :: l2).all (fun q => decide (q.2 ≤ x.2))))
        (p :: l1) (m :: l2) hfalse
      rw [hstep]
      have hpredm : (fun x : String × Nat =>
          ((p :: l1) ++ m :: l2).all (fun q => decide (q.2 ≤ x.2))) m = true := by
        rw [List.all_eq_true]
        intro q hq
        exact decide_eq_true (hub q hq)
      rw [@List.find?_cons_of_pos (String × Nat)
        (fun x => ((p :: l1) ++ m :: l2).all (fun q => decide (q.2 ≤ x.2))) m l2 hpredm]

theorem all_dictKeys (P : String → Bool) (l : List String) :
    ((dictKeys l).all P) = (l.all P) := by
  cases h1 : (dictKeys l).all P
  · cases h2 : l.all P
    · rfl
    · rw [List.all_eq_true] at h2
      have h3 : (dictKeys l).all P = true :=
        List.all_eq_true.mpr (fun x hx => h2 x ((mem_dictKeys x l).mp hx))
      rw [h1] at h3
      exact h3
  · rw [List.all_eq_true] at h1
    have h3 : l.all P = true :=
      List.all_eq_true.mpr (fun x hx => h1 x ((mem_dictKeys x l).mpr hx))
    rw [h3]

theorem find?_comp_map {β : Type} (f : String → β) (P : β → Bool) (l : List String) :
    (l.map f).find? P = (l.find? (fun k => P (f k))).map f := by
  induction l with
  | nil => rfl
  | cons x xs ih =>
    rw [List.map_cons]
    by_cases h : P (f x) = true
    · rw [List.find?_cons_of_pos _ h,
        @List.find?_cons_of_pos String (fun k => P (f k)) x xs h]
      rfl
    · rw [List.find?_cons_of_neg _ h,
        @List.find?_cons_of_neg String (fun k => P (f k)) x xs h, ih]

theorem find?_filter_seen (P : String → Bool) (x : String) (hP : ¬ P x = true) :
    ∀ (xs seen : List String),
      (xs.filter (fun y => !((x :: seen).contains y))).find? P =
        (xs.filter (fun y => !(seen.contains y))).find? P := by
  intro xs
  induction xs with
  | nil => intro seen; rfl
  | cons y ys ih =>
    intro seen
    rw [List.filter_cons, List.filter_cons]
    by_cases hy : y = x
    · have h1 : ((x :: seen).contains y) = true := by
        rw [List.contains_cons]
        simp [hy]
      by_cases hs : seen.contains y = true
      · rw [if_neg (by rw [h1]; simp), if_neg (by rw [hs]; simp)]
        exact ih seen
      · have hs2 : seen.contains y = false := by
          cases hc : seen.contains y
          · rfl
          · exact absurd hc hs
        rw [if_neg (by rw [h1]; simp), if_pos (by rw [hs2]; simp)]
        rw [List.find?_cons_of_neg _ (by rw [hy]; exact hP)]
        exact ih seen
    · have h1 : ((x :: seen).contains y) = (seen.contains y) := by
        rw [List.contains_cons]
        have : (y == x) = false := by
          rw [beq_eq_false_iff_ne]
          exact hy
        rw [this]
        simp
      rw [h1]
      by_cases hs : seen.contains y = true
      · rw [if_neg (by rw [hs]; simp), if_neg (by rw [hs]; simp)]
        exact ih seen
      · have hs2 : seen.contains y = false := by
          cases hc : seen.contains y
          · rfl
          · exact absurd hc hs
        rw [if_pos (by rw [hs2]; simp), if_pos (by rw [hs2]; simp)]
        by_cases hPy : P y = true
        · rw [List.find?_cons_of_pos _ hPy, List.find?_cons_of_pos _ hPy]
        · rw [List.find?_cons_of_neg _ hPy, List.find?_cons_of_neg _ hPy]
          exact ih seen

theorem find?_dictKeysAux (P : String → Bool) :
    ∀ (l seen : List String),
      (dictKeysAux seen l).find? P = (l.filter (fun y => !(seen.contains y))).find? P := by
  intro l
  induction l with
  | nil => intro seen; rfl
  | cons x xs ih =>
    intro seen
    unfold dictKeysAux
    rw [List.filter_cons]
    by_cases hx : seen.contains x = true
    · rw [if_pos hx, if_neg (by rw [hx]; simp)]
      exact ih seen
    · have hx2 : seen.contains x = false := by
        cases hc : seen.contains x
        · rfl
        · exact absurd hc hx
      rw [if_neg hx, if_pos (by rw [hx2]; simp)]
      by_cases hPx : P x = true
      · rw [List.find?_cons_of_pos _ hPx, List.find?_cons_of_pos _ hPx]
      · rw [List.find?_cons_of_neg _ hPx, List.find?_cons_of_neg _ hPx, ih (x :: seen)]
        exact find?_filter_seen P x hPx xs seen

theorem find?_dictKeys (P : String → Bool) (l : List String) :
    (dictKeys l).find? P = l.find? P := by
  unfold dictKeys
  rw [find?_dictKeysAux]
  congr 1
  rw [List.filter_eq_self]
  intro a ha
  rfl

theorem all_map_local {α β : Type} (f : α → β) (p : β → Bool) (l : List α) :
    (l.map f).all p = l.all (fun x => p (f x)) := by
  induction l with
  | nil => rfl
  | cons x xs ih => rw [List.map_cons, List.all_cons, List.all_cons, ih]

theorem pyMax_map_key (f : String → Nat) (keys : List String) :
    pyMax (keys.map (fun k => (k, f k))) =
      (keys.find? (fun k => keys.all (fun k2 => decide (f k2 ≤ f k)))).map
        (fun k => (k, f k)) := by
  rw [pyMax_first_max, find?_comp_map]
  congr 1
  congr 1
  funext k
  show ((keys.map (fun k => (k, f k))).all (fun q => decide (q.2 ≤ f k)))
      = keys.all (fun k2 => decide (f k2 ≤ f k))
  rw [all_map_local]

theorem pyMaxKey_dictKeys (f : String → Nat) (options : List String) :
    pyMaxKey ((dictKeys options).map (fun k => (k, f k))) =
      options.find? (fun o => options.all (fun o2 => decide (f o2 ≤ f o))) := by
  unfold pyMaxKey
  rw [pyMax_map_key]
  have h1 : (fun k => (dictKeys options).all (fun k2 => decide (f k2 ≤ f k)))
      = (fun k => options.all (fun k2 => decide (f k2 ≤ f k))) :=
    funext (fun k => all_dictKeys _ _)
  rw [h1, find?_dictKeys]
  cases options.find? (fun o => options.all (fun o2 => decide (f o2 ≤ f o)))
  · rfl
  · rfl

/-- C4: for an existing ballot with at least one counted vote, the tally
winner is the first option in the ballot's declared `options` order whose
count is maximal: its count is at least every other option's count, and it
is exactly the option `find?` (first match) selects in declared order among
the maxima — reproducing Python `max`'s ties-to-first semantics over the
insertion-ordered counts dict. -/
theorem tally_winner_declared_order (round2 : Rat → Rat) (s : DBState) (ballot_id : String)
    (ballot : Ballot) (summary : Summary)
    (hb : findBallot s ballot_id = some ballot)
    (ht : tally round2 s ballot_id = .ok summary)
    (hpos : 0 < summary.total_votes) :
    ∃ w, summary.winner = some w ∧ w ∈ ballot.options ∧
      (∀ o ∈ ballot.options, choiceCount s ballot_id o ≤ choiceCount s ballot_id w) ∧
      ballot.options.find? (fun o => ballot.options.all
        (fun o2 => decide (choiceCount s ballot_id o2 ≤ choiceCount s ballot_id o)))
        = some w := by
  rw [tally_found round2 s ballot_id ballot hb] at ht
  injection ht with ht2
  subst ht2
  have hpos2 : 0 < ((tallyCounts ballot.options (votesFor s ballot_id)).map Prod.snd).sum :=
    hpos
  have hne : ((tallyCounts ballot.options (votesFor s ballot_id)).map Prod.snd).sum ≠ 0 :=
    Nat.pos_iff_ne_zero.mp hpos2
  have hCeq : tallyCounts ballot.options (votesFor s ballot_id) =
      (dictKeys ballot.options).map (fun k => (k, choiceCount s ballot_id k)) :=
    tallyCounts_eq _ _
  have hwin : (if ((tallyCounts ballot.options (votesFor s ballot_id)).map Prod.snd).sum = 0
      then none else pyMaxKey (tallyCounts ballot.options (votesFor s ballot_id)))
      = pyMaxKey (tallyCounts ballot.options (votesFor s ballot_id)) := if_neg hne
  have hpk : pyMaxKey (tallyCounts ballot.options (votesFor s ballot_id)) =
      ballot.options.find? (fun o => ballot.options.all
        (fun o2 => decide (choiceCount s ballot_id o2 ≤ choiceCount s ballot_id o))) := by
    rw [hCeq]
    exact pyMaxKey_dictKeys (choiceCount s ballot_id) ballot.options
  have hCne : tallyCounts ballot.options (votesFor s ballot_id) ≠ [] := by
    intro h0
    apply hne
    rw [h0]
    rfl
  obtain ⟨m, hpm⟩ : ∃ m, pyMax (tallyCounts ballot.options (votesFor s ballot_id)) = some m := by
    cases hCc : tallyCounts ballot.options (votesFor s ballot_id) with
    | nil => exact absurd hCc hCne
    | cons p rest => exact ⟨rest.foldl pyStep p, rfl⟩
  have hmC : m ∈ tallyCounts ballot.options (votesFor s ballot_id) ∧
      ∀ q ∈ tallyCounts ballot.options (votesFor s ballot_id), q.2 ≤ m.2 := by
    cases hCc : tallyCounts ballot.options (votesFor s ballot_id) with
    | nil => exact absurd hCc hCne
    | cons p rest =>
      rw [hCc] at hpm
      have hpm2 : rest.foldl pyStep p = m := by
        injection hpm
      obtain ⟨hmem, hple, hall⟩ := foldl_pyStep_spec rest p
      rw [hpm2] at hmem hple hall
      constructor
      · rcases hmem with h1 | h1
        · rw [h1]; exact List.mem_cons_self p rest
        · exact List.mem_cons_of_mem p h1
      · intro q hq
        rcases List.mem_cons.mp hq with h1 | h1
        · rw [h1]; exact hple
        · exact hall q h1
  have hmC1 := hmC.1
  rw [hCeq] at hmC1
  obtain ⟨k, hk, hke⟩ := List.mem_map.mp hmC1
  refine ⟨m.1, ?_, ?_, ?_, ?_⟩
  · show (if ((tallyCounts ballot.options (votesFor s ballot_id)).map Prod.snd).sum = 0
      then none else pyMaxKey (tallyCounts ballot.options (votesFor s ballot_id))) = some m.1
    rw [hwin]
    unfold pyMaxKey
    rw [hpm]
    rfl
  · rw [← hke]
    exact (mem_dictKeys k ballot.options).mp hk
  · intro o ho
    have hoC : (o, choiceCount s ballot_id o) ∈
        tallyCounts ballot.options (votesFor s ballot_id) := by
      rw [hCeq]
      exact List.mem_map.mpr ⟨o, (mem_dictKeys o ballot.options).mpr ho, rfl⟩
    have h1 := hmC.2 _ hoC
    have h2 : m.2 = choiceCount s ballot_id m.1 := by
      rw [← hke]
    rw [h2] at h1
    exact h1
  · rw [← hpk]
    unfold pyMaxKey
    rw [hpm]
    rfl

/-- Witness for C4: the spec §8 tie-break scenario — options `["X", "Y"]`
with one vote each on the concrete store `sT` — yields winner `"X"`, the
earlier declared option. -/
theorem tally_winner_declared_order_witness :
    (tally (fun q => q) sT "b3").map Summary.winner = .ok (some "X") ∧
    choiceCount sT "b3" "X" = 1 ∧ choiceCount sT "b3" "Y" = 1 := by
  obtain ⟨w, hw, hmem, hmax, hfind⟩ :=
    tally_winner_declared_order (fun q => q) sT "b3" bT _ rfl rfl (by decide)
  have hfind2 : (some "X" : Option String) = some w := by
    rw [← hfind]
    rfl
  injection hfind2 with hwX
  refine ⟨?_, rfl, rfl⟩
  have h3 : (tally (fun q => q) sT "b3").map Summary.winner = Except.ok (some w) := by
    rw [← hw]
    rfl
  rw [h3, ← hwX]

theorem countP_or_disjoint (votes : List Vote) (P Q : Vote → Bool)
    (hdisj : ∀ v, ¬(P v = true ∧ Q v = true)) :
    votes.countP (fun v => P v || Q v) = votes.countP P + votes.countP Q := by
  induction votes with
  | nil => simp
  | cons v vs ih =>
    rw [List.countP_cons, List.countP_cons, List.countP_cons, ih]
    by_cases hP : P v = true
    · have hQ : Q v = false := by
        cases hq : Q v
        · rfl
        · exact absurd ⟨hP, hq⟩ (hdisj v)
      rw [hP, hQ]
      simp
      omega
    · have hP2 : P v = false := by
        cases hp : P v
        · rfl
        · exact absurd hp hP
      by_cases hQ : Q v = true
      · rw [hP2, hQ]
        simp
        omega
      · have hQ2 : Q v = false := by
          cases hq : Q v
          · rfl
          · exact absurd hq hQ
        rw [hP2, hQ2]
        simp

theorem sum_counts_eq_countP (votes : List Vote) :
    ∀ keys : List String, keys.Nodup →
      (keys.map (fun k => countFor votes k)).sum =
        votes.countP (fun v => keys.contains v.choice) := by
  intro keys
  induction keys with
  | nil =>
    intro h
    rw [List.map_nil, List.sum_nil]
    symm
    rw [List.countP_eq_zero]
    intro v hv
    exact fun hcon => Bool.noConfusion hcon
  | cons k ks ih =>
    intro hnd
    rw [List.map_cons, List.sum_cons, ih (List.Nodup.of_cons hnd)]
    have hk : k ∉ ks := (List.nodup_cons.mp hnd).1
    have hrw : (fun v : Vote => (k :: ks).contains v.choice) =
        (fun v => (v.choice == k) || ks.contains v.choice) := by
      funext v
      rw [List.contains_cons]
    have hdisj : ∀ v : Vote, ¬((v.choice == k) = true ∧ (ks.contains v.choice) = true) := by
      rintro v ⟨h1, h2⟩
      have h3 : v.choice = k := beq_iff_eq.mp h1
      rw [h3] at h2
      exact hk (List.elem_iff.mp h2)
    rw [hrw, countP_or_disjoint votes _ _ hdisj]
    rfl

/-- C9 (amended): for an existing ballot and any store state in which every
stored vote for that ballot has a choice among the ballot's declared
options — which is every state reachable through the casting protocol —
the `total_votes` of the JSON export's summary equals the number of data
rows of the CSV export. -/
theorem export_total_votes_eq_csv_rows (round2 : Rat → Rat) (s : DBState)
    (ballot_id : String) (ballot : Ballot) (summary : Summary) (votes : List Vote)
    (rows : List (List String))
    (hb : findBallot s ballot_id = some ballot)
    (hin : ∀ v ∈ votesFor s ballot_id, v.choice ∈ ballot.options)
    (hj : export_results round2 s ballot_id "json" = .ok (.jsonDoc summary votes))
    (hc : export_results round2 s ballot_id "csv" = .ok (.csvDoc rows)) :
    summary.total_votes = rows.length := by
  unfold export_results at hj hc
  rw [tally_found round2 s ballot_id ballot hb] at hj hc
  injection hj with hj2
  injection hj2 with hj3 hj4
  injection hc with hc2
  injection hc2 with hc3
  subst hj3
  subst hc3
  rw [List.length_map]
  show ((tallyCounts ballot.options (votesFor s ballot_id)).map Prod.snd).sum
      = (votesFor s ballot_id).length
  rw [tallyCounts_eq, List.map_map]
  have hcomp : (Prod.snd ∘ fun k => (k, countFor (votesFor s ballot_id) k)) =
      (fun k => countFor (votesFor s ballot_id) k) := rfl
  rw [hcomp]
  rw [sum_counts_eq_countP (votesFor s ballot_id) (dictKeys ballot.options) (nodup_dictKeys _)]
  rw [List.countP_eq_length]
  intro v hv
  exact List.elem_iff.mpr ((mem_dictKeys v.choice ballot.options).mpr (hin v hv))

/-- Witness for the amended C9: on the concrete store `sT` (two votes, both
for declared options), the JSON summary's `total_votes` and the CSV data
row count agree at 2. -/
theorem export_total_votes_eq_csv_rows_witness :
    (export_results (fun q => q) sT "b3" "json").map jsonTotalVotes = .ok (some 2) ∧
    (export_results (fun q => q) sT "b3" "csv").map csvRowCount = .ok (some 2) := by
  have h := export_total_votes_eq_csv_rows (fun q => q) sT "b3" bT _ _ _ rfl
    (by decide) rfl rfl
  exact ⟨rfl, rfl⟩

end VotingSystem
